import Mathlib

/-!
Shallow embedding of the `action` package: a single-threaded actor runner with a
bounded FIFO work queue, post-action hooks, lifecycle errors, generic blocking
call helpers with cancellation semantics, and a generic serialized value holder.

The embedding translates the Go source directly:
  * `Runner.Start` and the private run loop `start` come from the runner file
    that carries hooks, a `done` channel and an atomic error slot
    (src/unnamed/part_000, first document).
  * The call helpers (`ActGetErr`, `ActErr`, `Act`, `ActGet`, `ActGet2`,
    `ActGet3`) come from the helper file whose helpers call `r.Send` and then
    race `r.Ctx().Done()` against a private result cell
    (src/unnamed/part_001, second document), with the `src/action.go` variant
    (where `Send` itself returns the context) noted where the two differ.
  * The serialized holder (`Actable`) comes from the implementation document of
    src/actable_test.go.

Go actions `func()` close over shared state; they are modelled as state
transformers `σ → σ`.  Hooks `func(ctx) error` may both observe and mutate the
shared state and report an error, so they are modelled as `σ → σ × Option ε`.
Go `nil` errors are `Option.none`; a non-nil Go error is `some e`.
Go zero values are modelled by `Inhabited.default`.
-/

namespace ActionLib

/-- Errors returned by `Runner.Start`, from src/error.go lines 5-8
(`ErrAlreadyStarted = errors.New("runner already started")`,
`ErrNilContext = errors.New("context is nil")`). -/
inductive StartError
  | alreadyStarted
  | nilContext
deriving DecidableEq, Repr

/-- A Go `context.Context` as the run loop observes it.  `doneAt = some k` means
the loop's `select` observes `ctx.Done()` as ready once `k` actions have been
dequeued and processed (the resolution of the scheduling race); `doneAt = none`
means the context never becomes done.  `err` is the value of `ctx.Err()` once
the context is done; the Go context contract guarantees it is non-nil then. -/
structure GoCtx (ε : Type) where
  doneAt : Option Nat
  err : ε
deriving DecidableEq, Repr

/-- Whether the context is observably done by the time `n` actions have been
processed. -/
def GoCtx.doneBy {ε : Type} (ctx : GoCtx ε) (n : Nat) : Bool :=
  match ctx.doneAt with
  | some k => decide (k ≤ n)
  | none => false

/-- The `Runner` struct of src/unnamed/part_000 lines 15-23: a buffered stream
of pending actions (contents plus channel capacity), the `isStarted` atomic
flag, the bound context, and the registered hooks.  `loopSpawned` records that
`go r.start(ctx)` has been issued (the `done` channel and atomic error slot
live in `LoopResult` below, as they are written only by the run loop). -/
structure Runner (σ ε : Type) where
  stream : List (σ → σ)
  chanCap : Nat
  isStarted : Bool
  ctx : Option (GoCtx ε)
  hooks : List (σ → σ × Option ε)
  loopSpawned : Bool

/-- The runner produced by `New()` with no options (part_000 lines 29-39):
stream capacity 1, nothing queued, not started, no context, no hooks. -/
def Runner.new {σ ε : Type} : Runner σ ε :=
  { stream := []
    chanCap := 1
    isStarted := false
    ctx := none
    hooks := []
    loopSpawned := false }

/-- Option `WithChanSize` (part_000 lines 41-50): sets the stream capacity;
a size of zero or below is ignored and the default kept. -/
def WithChanSize {σ ε : Type} (size : Int) (r : Runner σ ε) : Runner σ ε :=
  if size ≤ 0 then r else { r with chanCap := size.toNat }

/-- Option `WithHook` (part_000 lines 52-63): appends a non-nil hook to the
runner's hook list; a nil hook (modelled by `none`) is ignored. -/
def WithHook {σ ε : Type} (h : Option (σ → σ × Option ε)) (r : Runner σ ε) :
    Runner σ ε :=
  match h with
  | none => r
  | some f => { r with hooks := r.hooks ++ [f] }

/-- Method `Runner.Start` (part_000 lines 67-78), translated statement by
statement.  Note the source order: `isStarted.Store(true)` happens before the
`ctx == nil` check, so a nil context leaves the started flag set even though no
run loop is spawned and no context is bound. -/
def Runner.Start {σ ε : Type} (r : Runner σ ε) (ctx : Option (GoCtx ε)) :
    Runner σ ε × Option StartError :=
  if r.isStarted then
    (r, some .alreadyStarted)
  else
    let r1 := { r with isStarted := true }
    match ctx with
    | none => (r1, some .nilContext)
    | some c => ({ r1 with ctx := some c, loopSpawned := true }, none)

/-- C3: the claim states that `Start(nil)` returns `ErrNilContext` and leaves
the runner unstarted, so that a subsequent `Start` with a valid context
succeeds.  Evaluating the translated `Start` at that exact input shows
otherwise: the nil-context call does return `ErrNilContext` and spawns no loop,
but it leaves `isStarted = true`, so the subsequent valid `Start` returns
`ErrAlreadyStarted` instead of succeeding.  This is the flag-set-before-
validation slip in part_000 lines 70-74. -/
theorem C3_start_nil_then_valid_start_fails :
    ((Runner.new : Runner Nat Nat).Start none).2 = some StartError.nilContext
    ∧ ((Runner.new : Runner Nat Nat).Start none).1.isStarted = true
    ∧ ((Runner.new : Runner Nat Nat).Start none).1.loopSpawned = false
    ∧ (((Runner.new : Runner Nat Nat).Start none).1.Start
        (some { doneAt := none, err := 0 })).2 = some StartError.alreadyStarted :=
  ⟨rfl, rfl, rfl, rfl⟩

/-- C4: calling `Start` a second time on the same runner after a first
successful `Start` returns `ErrAlreadyStarted`, and the runner value — its
queue, bound context, hooks and spawned loop — is returned completely
unchanged, so the original run loop is unaffected. -/
theorem C4_second_start_already_started {σ ε : Type} (r : Runner σ ε)
    (c : GoCtx ε) (ctx2 : Option (GoCtx ε)) (h : r.isStarted = false) :
    (r.Start (some c)).2 = none
    ∧ (r.Start (some c)).1.loopSpawned = true
    ∧ (r.Start (some c)).1.Start ctx2
        = ((r.Start (some c)).1, some StartError.alreadyStarted) := by
  simp [Runner.Start, h]

/-- Witness for C4 at a concrete runner: the fresh runner is unstarted, a first
start succeeds and a second start reports `ErrAlreadyStarted`. -/
theorem C4_witness :
    ((Runner.new : Runner Nat Nat).Start (some { doneAt := none, err := 0 })).2
        = none
    ∧ ((Runner.new : Runner Nat Nat).Start
        (some { doneAt := none, err := 0 })).1.loopSpawned = true
    ∧ ((Runner.new : Runner Nat Nat).Start
          (some { doneAt := none, err := 0 })).1.Start none
        = (((Runner.new : Runner Nat Nat).Start
            (some { doneAt := none, err := 0 })).1,
           some StartError.alreadyStarted) :=
  C4_second_start_already_started Runner.new { doneAt := none, err := 0 } none rfl

/-- Events observable from the run loop of part_000 lines 80-106.
`exec n` is the call `action()` for the n-th dequeued closure;
`hook n i` is the call `h(ctx)` of the i-th registered hook after closure n. -/
inductive LoopEvent
  | exec (n : Nat)
  | hook (n : Nat) (i : Nat)
deriving DecidableEq, Repr

/-- Result of running the loop: the shared state, the runner's atomic error
slot `r.err` (written at most once, by the loop), whether the deferred
`close(r.done)` has run (the loop exited), and the event trace.
`doneClosed = false` models the loop still blocked in its `select`. -/
structure LoopResult (σ ε : Type) where
  state : σ
  errSlot : Option ε
  doneClosed : Bool
  trace : List LoopEvent
deriving DecidableEq, Repr

/-- Accessor `Runner.Error` (part_000 lines 113-120): load the atomic error
pointer; a nil pointer yields a nil error, otherwise the stored error. -/
def LoopResult.errorAcc {σ ε : Type} (res : LoopResult σ ε) : Option ε :=
  match res.errSlot with
  | none => none
  | some e => some e

/-- The hook sweep of part_000 lines 98-103: run the registered hooks in
registration order on the state left by the executed action; stop at the first
hook returning a non-nil error.  Returns the state after the hooks that ran,
the first error (if any), and how many hooks were invoked. -/
def runHooks {σ ε : Type} : List (σ → σ × Option ε) → σ → σ × Option ε × Nat
  | [], s => (s, none, 0)
  | h :: hs, s =>
    match h s with
    | (s1, some e) => (s1, some e, 1)
    | (s1, none) =>
      match runHooks hs s1 with
      | (s2, r, k) => (s2, r, k + 1)

/-- The private run loop `Runner.start` (part_000 lines 80-106).  `n` counts
the closures dequeued so far; `queue` is the remaining stream contents.  Each
iteration's `select`: if the context is observably done, store `ctx.Err()` in
the error slot and exit (the deferred `Once` then closes `stream` and `done`);
otherwise dequeue the next action, execute it, and run the hooks — a failing
hook stores its error and exits.  With an empty queue the loop blocks until the
context fires (exit with `ctx.Err()`) or forever if it never does.  The `!ok`
branch of the source is unreachable while the loop runs: this runner version
has no `Stop`, and `stream` is closed only by the loop's own deferred
shutdown. -/
def startLoop {σ ε : Type} (hooks : List (σ → σ × Option ε)) (ctx : GoCtx ε) :
    Nat → List (σ → σ) → σ → LoopResult σ ε
  | n, [], s =>
    if ctx.doneBy n then ⟨s, some ctx.err, true, []⟩
    else if ctx.doneAt.isSome then ⟨s, some ctx.err, true, []⟩
    else ⟨s, none, false, []⟩
  | n, a :: rest, s =>
    if ctx.doneBy n then ⟨s, some ctx.err, true, []⟩
    else
      match runHooks hooks (a s) with
      | (s2, some e, k) =>
        ⟨s2, some e, true, .exec n :: (List.range k).map (.hook n)⟩
      | (s2, none, k) =>
        let res := startLoop hooks ctx (n + 1) rest s2
        ⟨res.state, res.errSlot, res.doneClosed,
          .exec n :: ((List.range k).map (.hook n) ++ res.trace)⟩

/-- Trace shape required by the spec's ordering guarantee, written from the
spec's words: starting at closure index `first`, `count` closures execute
strictly in enqueue order, one at a time, and all `numHooks` hooks of closure
n complete before closure n+1 begins. -/
def specFifoTrace (numHooks : Nat) : Nat → Nat → List LoopEvent
  | _, 0 => []
  | first, count + 1 =>
    .exec first :: ((List.range numHooks).map (.hook first)
      ++ specFifoTrace numHooks (first + 1) count)

theorem runHooks_all_ok {σ ε : Type} (hooks : List (σ → σ × Option ε))
    (hh : ∀ f ∈ hooks, ∀ t, (f t).2 = none) (s : σ) :
    (runHooks hooks s).2.1 = none ∧ (runHooks hooks s).2.2 = hooks.length := by
  induction hooks generalizing s with
  | nil => exact ⟨rfl, rfl⟩
  | cons f fs ih =>
    have hf : (f s).2 = none := hh f (List.mem_cons_self f fs) s
    have hfs : ∀ g ∈ fs, ∀ t, (g t).2 = none := fun g hg t =>
      hh g (List.mem_cons_of_mem f hg) t
    rcases hfe : f s with ⟨t1, e1⟩
    have he1 : e1 = none := by rw [hfe] at hf; exact hf
    subst he1
    rcases hrec : runHooks fs t1 with ⟨t2, r2, k2⟩
    have := ih hfs t1
    rw [hrec] at this
    simp only [runHooks, hfe, hrec]
    exact ⟨this.1, by simpa using this.2⟩

theorem startLoop_trace_fifo {σ ε : Type} (hooks : List (σ → σ × Option ε))
    (ctx : GoCtx ε) (hc : ctx.doneAt = none)
    (hh : ∀ f ∈ hooks, ∀ t, (f t).2 = none) :
    ∀ (queue : List (σ → σ)) (n : Nat) (s : σ),
      (startLoop hooks ctx n queue s).trace
        = specFifoTrace hooks.length n queue.length := by
  intro queue
  induction queue with
  | nil =>
    intro n s
    simp [startLoop, GoCtx.doneBy, hc, specFifoTrace]
  | cons a rest ih =>
    intro n s
    have hdone : ctx.doneBy n = false := by simp [GoCtx.doneBy, hc]
    rcases hr : runHooks hooks (a s) with ⟨s2, e, k⟩
    have hok := runHooks_all_ok hooks hh (a s)
    rw [hr] at hok
    obtain ⟨he, hk⟩ := hok
    simp only at he hk
    subst he hk
    simp only [startLoop, hdone, Bool.false_eq_true, if_false, hr,
      List.length_cons, specFifoTrace]
    rw [ih (n + 1) s2]

/-- C1: for every sequence of closures enqueued on one started runner whose
context never fires and whose hooks all succeed, the run loop — a single
sequential thread of control, so no two executions can overlap — produces
exactly the spec's trace: closures execute strictly in enqueue (FIFO) order,
one at a time, and every registered hook for closure n completes before
closure n+1 begins executing. -/
theorem C1_fifo_serialized_with_hooks {σ ε : Type}
    (hooks : List (σ → σ × Option ε)) (ctx : GoCtx ε) (queue : List (σ → σ))
    (s : σ) (hc : ctx.doneAt = none)
    (hh : ∀ f ∈ hooks, ∀ t, (f t).2 = none) :
    (startLoop hooks ctx 0 queue s).trace
      = specFifoTrace hooks.length 0 queue.length :=
  startLoop_trace_fifo hooks ctx hc hh queue 0 s

/-- Witness for C1: two closures and one always-succeeding hook on a
never-cancelled context yield the canonical FIFO trace
exec 0, hook 0 0, exec 1, hook 1 0. -/
theorem C1_witness :
    (startLoop (σ := Nat) (ε := Nat) [fun s => (s + 1, none)]
        { doneAt := none, err := 0 } 0 [fun s => s * 2, fun s => s + 3] 5).trace
      = specFifoTrace 1 0 2 :=
  C1_fifo_serialized_with_hooks [fun s => (s + 1, none)]
    { doneAt := none, err := 0 } [fun s => s * 2, fun s => s + 3] 5 rfl
    (by
      intro f hf t
      rcases List.mem_singleton.mp hf with rfl
      rfl)

/-- C2: enqueue closures A then B (and anything after); if the hook sweep after
A's execution reports an error, the loop records that error in the runner's
error slot (so the error accessor returns it), closes down, and the trace shows
only A's execution and the hooks that ran — in particular B (closure index 1)
never executes. -/
theorem C2_hook_failure_stops_loop {σ ε : Type}
    (hooks : List (σ → σ × Option ε)) (ctx : GoCtx ε) (a b : σ → σ)
    (rest : List (σ → σ)) (s : σ) (s2 : σ) (e : ε) (k : Nat)
    (hlive : ctx.doneBy 0 = false)
    (hfail : runHooks hooks (a s) = (s2, some e, k)) :
    (startLoop hooks ctx 0 (a :: b :: rest) s).errorAcc = some e
    ∧ (startLoop hooks ctx 0 (a :: b :: rest) s).doneClosed = true
    ∧ (startLoop hooks ctx 0 (a :: b :: rest) s).trace
        = .exec 0 :: (List.range k).map (.hook 0)
    ∧ LoopEvent.exec 1 ∉ (startLoop hooks ctx 0 (a :: b :: rest) s).trace := by
  have hstep : startLoop hooks ctx 0 (a :: b :: rest) s
      = ⟨s2, some e, true, .exec 0 :: (List.range k).map (.hook 0)⟩ := by
    simp [startLoop, hlive, hfail]
  rw [hstep]
  refine ⟨rfl, rfl, rfl, ?_⟩
  intro hmem
  rcases List.mem_cons.mp hmem with h1 | h2
  · cases h1
  · rcases List.mem_map.mp h2 with ⟨i, _, hi⟩
    cases hi

/-- Witness for C2: one always-failing hook; after closure A runs, the error
is recorded, the runner is done, and closure B never executes. -/
theorem C2_witness :
    (startLoop (σ := Nat) (ε := Nat) [fun s => (s, some 7)]
        { doneAt := none, err := 0 } 0 [fun s => s + 1, fun s => s * 9] 0).errorAcc
      = some 7
    ∧ (startLoop (σ := Nat) (ε := Nat) [fun s => (s, some 7)]
        { doneAt := none, err := 0 } 0 [fun s => s + 1, fun s => s * 9] 0).doneClosed
      = true
    ∧ (startLoop (σ := Nat) (ε := Nat) [fun s => (s, some 7)]
        { doneAt := none, err := 0 } 0 [fun s => s + 1, fun s => s * 9] 0).trace
      = .exec 0 :: (List.range 1).map (.hook 0)
    ∧ LoopEvent.exec 1 ∉ (startLoop (σ := Nat) (ε := Nat) [fun s => (s, some 7)]
        { doneAt := none, err := 0 } 0 [fun s => s + 1, fun s => s * 9] 0).trace :=
  C2_hook_failure_stops_loop [fun s => (s, some 7)] { doneAt := none, err := 0 }
    (fun s => s + 1) (fun s => s * 9) [] 0 1 7 1 rfl rfl

/-- C9: the completion channel and the error slot move together — in every
reachable outcome of the run loop, the `done` channel has been closed exactly
when the error accessor returns a recorded (non-nil) terminal error; while the
loop has not stopped, the error accessor returns nil.  The loop's only exits
store `ctx.Err()` (non-nil once the context is done) or a failing hook's
non-nil error before the deferred close runs. -/
theorem C9_done_iff_error_recorded {σ ε : Type}
    (hooks : List (σ → σ × Option ε)) (ctx : GoCtx ε) (n : Nat)
    (queue : List (σ → σ)) (s : σ) :
    ((startLoop hooks ctx n queue s).errorAcc).isSome
      = (startLoop hooks ctx n queue s).doneClosed := by
  induction queue generalizing n s with
  | nil =>
    by_cases h : ctx.doneBy n
    · simp [startLoop, h, LoopResult.errorAcc]
    · by_cases h2 : ctx.doneAt.isSome
      · simp [startLoop, h, h2, LoopResult.errorAcc]
      · simp [startLoop, h, h2, LoopResult.errorAcc]
  | cons a rest ih =>
    by_cases h : ctx.doneBy n
    · simp [startLoop, h, LoopResult.errorAcc]
    · rcases hr : runHooks hooks (a s) with ⟨s2, e, k⟩
      cases e with
      | none =>
        simp only [startLoop, h, Bool.false_eq_true, if_false, hr]
        exact ih (n + 1) s2
      | some err =>
        simp [startLoop, h, hr, LoopResult.errorAcc]

/-- Resolution of the `select` race inside a call helper: either the runner's
cancellation context is observed done first (`ctxDone`), or the private result
cell is read first (`cellRead`).  When both are simultaneously ready the Go
`select` picks either; the chosen branch is this value. -/
inductive RaceWinner
  | ctxDone
  | cellRead
deriving DecidableEq, Repr

/-- ActGetErr (part_001 second document lines 141-163; src/action.go lines
12-33): the wrapped closure runs `action()` and writes the pair into the
private cell; the select returns the Go zero value of `T` plus `ctx.Err()` on
cancellation, otherwise the pair read from the cell, unchanged. -/
def ActGetErr {T ε : Type} [Inhabited T] (w : RaceWinner) (ctxErr : ε)
    (action : Unit → T × Option ε) : T × Option ε :=
  let cell := action ()
  match w with
  | .ctxDone => (default, some ctxErr)
  | .cellRead => (cell.1, cell.2)

/-- ActErr (part_001 lines 165-178; src/action.go lines 35-47): the wrapped
closure writes `action()`'s error into the cell; the select returns `ctx.Err()`
on cancellation, otherwise the error read from the cell. -/
def ActErr {ε : Type} (w : RaceWinner) (ctxErr : ε)
    (action : Unit → Option ε) : Option ε :=
  let cell := action ()
  match w with
  | .ctxDone => some ctxErr
  | .cellRead => cell

/-- Act (part_001 lines 180-194; src/action.go lines 49-62): the wrapped
closure runs `action()` and writes a unit token; both select branches simply
return — cancellation is silent, with no signal of failure. -/
def Act (w : RaceWinner) (action : Unit → Unit) : Unit :=
  let cell := action ()
  match w with
  | .ctxDone => ()
  | .cellRead => cell

/-- ActGet (part_001 lines 196-210; src/action.go lines 64-77): the wrapped
closure writes `action()`'s value into the cell; the select returns the Go
zero value of `T` on cancellation, otherwise the value read from the cell. -/
def ActGet {T : Type} [Inhabited T] (w : RaceWinner)
    (action : Unit → T) : T :=
  let cell := action ()
  match w with
  | .ctxDone => default
  | .cellRead => cell

/-- ActGet2 (part_001 lines 212-235; src/action.go lines 79-103): two-value
variant of ActGet. -/
def ActGet2 {A B : Type} [Inhabited A] [Inhabited B] (w : RaceWinner)
    (action : Unit → A × B) : A × B :=
  let cell := action ()
  match w with
  | .ctxDone => (default, default)
  | .cellRead => (cell.1, cell.2)

/-- ActGet3 (part_001 lines 237-262; src/action.go lines 105-127): three-value
variant of ActGet. -/
def ActGet3 {A B C : Type} [Inhabited A] [Inhabited B] [Inhabited C]
    (w : RaceWinner) (action : Unit → A × B × C) : A × B × C :=
  let cell := action ()
  match w with
  | .ctxDone => (default, default, default)
  | .cellRead => (cell.1, cell.2.1, cell.2.2)

/-- C5: for every call helper, when the cancellation context wins the race the
helper returns the Go zero value (`default`) for each declared return type —
with the error-returning variants ActGetErr and ActErr additionally returning
the context's cancellation error, and the no-return variant Act returning with
no signal of failure — and when the result cell is fulfilled first, the
closure's value(s) and error come back unchanged. -/
theorem C5_cancellation_and_result_semantics :
    (∀ (T ε : Type) [Inhabited T] (e : ε) (act : Unit → T × Option ε),
      ActGetErr .ctxDone e act = ((default : T), some e)
      ∧ ActGetErr .cellRead e act = act ())
    ∧ (∀ (ε : Type) (e : ε) (act : Unit → Option ε),
      ActErr .ctxDone e act = some e ∧ ActErr .cellRead e act = act ())
    ∧ (∀ (act : Unit → Unit),
      Act .ctxDone act = () ∧ Act .cellRead act = act ())
    ∧ (∀ (T : Type) [Inhabited T] (act : Unit → T),
      ActGet .ctxDone act = (default : T) ∧ ActGet .cellRead act = act ())
    ∧ (∀ (A B : Type) [Inhabited A] [Inhabited B] (act : Unit → A × B),
      ActGet2 .ctxDone act = ((default : A), (default : B))
      ∧ ActGet2 .cellRead act = act ())
    ∧ (∀ (A B C : Type) [Inhabited A] [Inhabited B] [Inhabited C]
        (act : Unit → A × B × C),
      ActGet3 .ctxDone act = ((default : A), (default : B), (default : C))
      ∧ ActGet3 .cellRead act = act ()) := by
  refine ⟨?_, ?_, ?_, ?_, ?_, ?_⟩ <;> intros <;> exact ⟨rfl, rfl⟩

/-- Semantics of a Go channel send when no receiver ever arrives (the losing
branch of a call-helper race: the helper has already returned, so nobody will
read the cell).  A send on a channel with `cap` buffer slots of which `pending`
are full completes without blocking iff a slot is free; in particular a send on
an unbuffered channel (`cap = 0`) blocks forever. -/
def sendCompletesUnreceived (cap pending : Nat) : Bool :=
  decide (pending < cap)

/-- Result-cell capacity of ActGetErr in part_001: `make(chan struct{...}, 1)`. -/
def actGetErrCellCap : Nat := 1

/-- Result-cell capacity of ActErr in part_001 line 167: `make(chan error, 1)`. -/
def actErrCellCap : Nat := 1

/-- Result-cell capacity of Act in part_001 line 182: `make(chan any, 1)`. -/
def actCellCap : Nat := 1

/-- Result-cell capacity of ActGet in part_001 line 198: `make(chan T)` — an
unbuffered channel. -/
def actGetCellCap : Nat := 0

/-- Result-cell capacity of ActGet2 in part_001: `make(chan struct{a A; b B}, 1)`. -/
def actGet2CellCap : Nat := 1

/-- Result-cell capacity of ActGet3 in part_001: `make(chan struct{...}, 1)`. -/
def actGet3CellCap : Nat := 1

/-- Result-cell capacity of Act in the src/action.go variant, line 50:
`make(chan any)` — unbuffered (every helper in that file allocates its cell
without a capacity argument). -/
def actionGoActCellCap : Nat := 0

/-- C6 counterexample: the claim requires each helper's result cell to have
capacity at least 1 so that, after the cancellation branch wins, the dequeued
closure's write into the cell does not block the run loop.  ActGet's cell
(part_001 line 198) is unbuffered, as is Act's cell in the src/action.go
variant: capacity 0, and a send on it with no receiver never completes, so the
run loop blocks when it executes that closure. -/
theorem C6_counterexample_unbuffered_cells :
    ¬ 1 ≤ actGetCellCap
    ∧ sendCompletesUnreceived actGetCellCap 0 = false
    ∧ ¬ 1 ≤ actionGoActCellCap
    ∧ sendCompletesUnreceived actionGoActCellCap 0 = false := by
  decide

/-- C6 amended: in the part_001 helper family, ActGetErr, ActErr, Act, ActGet2
and ActGet3 allocate result cells of capacity 1, so the losing closure's single
write completes without a receiver and its result is merely discarded — the
run loop is not blocked and the only retained resource is that one buffered
cell; but ActGet allocates an unbuffered cell (as does every helper in the
src/action.go variant), so after a lost cancellation race its closure's write
into the cell blocks the run loop. -/
theorem C6_buffered_cells_except_actGet :
    sendCompletesUnreceived actGetErrCellCap 0 = true
    ∧ sendCompletesUnreceived actErrCellCap 0 = true
    ∧ sendCompletesUnreceived actCellCap 0 = true
    ∧ sendCompletesUnreceived actGet2CellCap 0 = true
    ∧ sendCompletesUnreceived actGet3CellCap 0 = true
    ∧ sendCompletesUnreceived actGetCellCap 0 = false
    ∧ sendCompletesUnreceived actionGoActCellCap 0 = false := by
  decide

/-- State of one call-helper invocation against the runner's stream, after the
helper body has run as far as it can without the run loop making progress.
`stream` is the queue contents, `blockedOnSend` records the caller stuck inside
`r.Send`, `consultedCtx` records that execution reached the read of the
context (`ctx := r.Ctx()` and the select), and `result` is the select's
outcome once reached. -/
structure CallOutcome (α ρ : Type) where
  stream : List α
  blockedOnSend : Bool
  consultedCtx : Bool
  result : Option ρ
deriving DecidableEq, Repr

/-- Runner.Send (part_000 lines 122-126): `r.stream <- a`, a blocking send on
the buffered stream.  It completes, appending the action, iff a buffer slot is
free; otherwise the caller blocks until the loop dequeues (`none` models the
state in which no dequeue has happened yet). -/
def sendStep {α : Type} (cap : Nat) (stream : List α) (a : α) :
    Option (List α) :=
  if stream.length < cap then some (stream ++ [a]) else none

/-- Common body shape of all six call helpers (part_001 lines 141-262 and
src/action.go lines 12-127): allocate the private cell, call `r.Send(wrapped)`
— before anything consults the context — then read the context and run the
select, whose outcome is `outcome ()`.  If `Send` blocks, the helper never
reaches the context or the select. -/
def sendThenSelect {α ρ : Type} (cap : Nat) (stream : List α) (wrapped : α)
    (outcome : Unit → ρ) : CallOutcome α ρ :=
  match sendStep cap stream wrapped with
  | none => ⟨stream, true, false, none⟩
  | some q => ⟨q, false, true, some (outcome ())⟩

/-- ActErr seen together with its enqueue step. -/
def ActErrCall {α ε : Type} (cap : Nat) (stream : List α) (wrapped : α)
    (w : RaceWinner) (ctxErr : ε) (action : Unit → Option ε) :
    CallOutcome α (Option ε) :=
  sendThenSelect cap stream wrapped (fun _ => ActErr w ctxErr action)

/-- Act seen together with its enqueue step. -/
def ActCall {α : Type} (cap : Nat) (stream : List α) (wrapped : α)
    (w : RaceWinner) (action : Unit → Unit) : CallOutcome α Unit :=
  sendThenSelect cap stream wrapped (fun _ => Act w action)

/-- ActGet seen together with its enqueue step. -/
def ActGetCall {α T : Type} [Inhabited T] (cap : Nat) (stream : List α)
    (wrapped : α) (w : RaceWinner) (action : Unit → T) : CallOutcome α T :=
  sendThenSelect cap stream wrapped (fun _ => ActGet w action)

/-- ActGetErr seen together with its enqueue step. -/
def ActGetErrCall {α T ε : Type} [Inhabited T] (cap : Nat) (stream : List α)
    (wrapped : α) (w : RaceWinner) (ctxErr : ε)
    (action : Unit → T × Option ε) : CallOutcome α (T × Option ε) :=
  sendThenSelect cap stream wrapped (fun _ => ActGetErr w ctxErr action)

/-- ActGet2 seen together with its enqueue step. -/
def ActGet2Call {α A B : Type} [Inhabited A] [Inhabited B] (cap : Nat)
    (stream : List α) (wrapped : α) (w : RaceWinner)
    (action : Unit → A × B) : CallOutcome α (A × B) :=
  sendThenSelect cap stream wrapped (fun _ => ActGet2 w action)

/-- ActGet3 seen together with its enqueue step. -/
def ActGet3Call {α A B C : Type} [Inhabited A] [Inhabited B] [Inhabited C]
    (cap : Nat) (stream : List α) (wrapped : α) (w : RaceWinner)
    (action : Unit → A × B × C) : CallOutcome α (A × B × C) :=
  sendThenSelect cap stream wrapped (fun _ => ActGet3 w action)

theorem sendThenSelect_spec {α ρ : Type} (cap : Nat) (stream : List α)
    (wrapped : α) (outcome : Unit → ρ) :
    (stream.length < cap →
      sendThenSelect cap stream wrapped outcome
        = ⟨stream ++ [wrapped], false, true, some (outcome ())⟩)
    ∧ (cap ≤ stream.length →
      sendThenSelect cap stream wrapped outcome = ⟨stream, true, false, none⟩) := by
  constructor
  · intro h
    simp [sendThenSelect, sendStep, h]
  · intro h
    simp [sendThenSelect, sendStep, Nat.not_lt.mpr h]

/-- C10: every call helper calls `Send` — a blocking enqueue — before it first
consults the cancellation context.  Whenever a buffer slot is free the wrapped
closure lands on the queue regardless of the race winner, in particular even
when the context is already canceled at call time (`w = ctxDone`); and when
the queue is full the helper blocks inside `Send` without ever having
consulted the context, so the cancellation race never covers the enqueue step
itself. -/
theorem C10_send_precedes_context {α ε T : Type} [Inhabited T] (cap : Nat)
    (stream : List α) (wrapped : α) (w : RaceWinner) (ctxErr : ε)
    (actErr : Unit → Option ε) (act0 : Unit → Unit) (actT : Unit → T)
    (hfree : stream.length < cap) :
    ((ActErrCall cap stream wrapped w ctxErr actErr).stream
        = stream ++ [wrapped]
      ∧ (ActErrCall cap stream wrapped w ctxErr actErr).consultedCtx = true)
    ∧ ((ActCall cap stream wrapped w act0).stream = stream ++ [wrapped]
      ∧ (ActCall cap stream wrapped w act0).consultedCtx = true)
    ∧ ((ActGetCall cap stream wrapped w actT).stream = stream ++ [wrapped]
      ∧ (ActGetCall cap stream wrapped w actT).consultedCtx = true)
    ∧ (∀ (full : List α), cap ≤ full.length →
        (ActErrCall cap full wrapped w ctxErr actErr).blockedOnSend = true
        ∧ (ActErrCall cap full wrapped w ctxErr actErr).consultedCtx = false
        ∧ (ActCall cap full wrapped w act0).blockedOnSend = true
        ∧ (ActCall cap full wrapped w act0).consultedCtx = false
        ∧ (ActGetCall cap full wrapped w actT).blockedOnSend = true
        ∧ (ActGetCall cap full wrapped w actT).consultedCtx = false) := by
  refine ⟨?_, ?_, ?_, ?_⟩
  · have h := (sendThenSelect_spec cap stream wrapped
      (fun _ => ActErr w ctxErr actErr)).1 hfree
    exact ⟨by rw [ActErrCall, h], by rw [ActErrCall, h]⟩
  · have h := (sendThenSelect_spec cap stream wrapped
      (fun _ => Act w act0)).1 hfree
    exact ⟨by rw [ActCall, h], by rw [ActCall, h]⟩
  · have h := (sendThenSelect_spec cap stream wrapped
      (fun _ => ActGet w actT)).1 hfree
    exact ⟨by rw [ActGetCall, h], by rw [ActGetCall, h]⟩
  · intro full hfl
    have h1 := (sendThenSelect_spec cap full wrapped
      (fun _ => ActErr w ctxErr actErr)).2 hfl
    have h2 := (sendThenSelect_spec cap full wrapped
      (fun _ => Act w act0)).2 hfl
    have h3 := (sendThenSelect_spec cap full wrapped
      (fun _ => ActGet w actT)).2 hfl
    exact ⟨by rw [ActErrCall, h1], by rw [ActErrCall, h1],
      by rw [ActCall, h2], by rw [ActCall, h2],
      by rw [ActGetCall, h3], by rw [ActGetCall, h3]⟩

/-- Witness for C10: with a context already canceled at call time (the race
winner is `ctxDone`), the closure sent by Act still lands on the queue, and a
full queue blocks the send before the context is ever consulted. -/
theorem C10_witness :
    ((ActErrCall (α := Nat) (ε := Nat) 1 [] 42 .ctxDone 0 fun _ => none).stream
        = [] ++ [42]
      ∧ (ActErrCall (α := Nat) (ε := Nat) 1 [] 42 .ctxDone 0
          fun _ => none).consultedCtx = true)
    ∧ ((ActCall (α := Nat) 1 [] 42 .ctxDone fun _ => ()).stream = [] ++ [42]
      ∧ (ActCall (α := Nat) 1 [] 42 .ctxDone fun _ => ()).consultedCtx = true)
    ∧ ((ActGetCall (α := Nat) (T := Nat) 1 [] 42 .ctxDone fun _ => 5).stream
        = [] ++ [42]
      ∧ (ActGetCall (α := Nat) (T := Nat) 1 [] 42 .ctxDone
          fun _ => 5).consultedCtx = true)
    ∧ (∀ (full : List Nat), 1 ≤ full.length →
        (ActErrCall (ε := Nat) 1 full 42 .ctxDone 0
            fun _ => none).blockedOnSend = true
        ∧ (ActErrCall (ε := Nat) 1 full 42 .ctxDone 0
            fun _ => none).consultedCtx = false
        ∧ (ActCall 1 full 42 .ctxDone fun _ => ()).blockedOnSend = true
        ∧ (ActCall 1 full 42 .ctxDone fun _ => ()).consultedCtx = false
        ∧ (ActGetCall (T := Nat) 1 full 42 .ctxDone
            fun _ => 5).blockedOnSend = true
        ∧ (ActGetCall (T := Nat) 1 full 42 .ctxDone
            fun _ => 5).consultedCtx = false) :=
  C10_send_precedes_context 1 [] 42 .ctxDone 0 (fun _ => none) (fun _ => ())
    (fun _ => 5) (by decide)

/-- Go dynamic types relevant to the `Actable` (de)serialization fragment:
`reflect.TypeOf` distinguishes these. -/
inductive GoDynTy
  | tString
  | tInt
  | tFloat64
  | tBool
deriving DecidableEq, Repr

/-- Go values of those dynamic types.  `vF64 i` is a `float64` holding the
integral value `i` — the fragment only needs the float64 values produced by
decoding integer-literal JSON numbers, all exactly representable. -/
inductive GoVal
  | vStr (s : String)
  | vInt (i : Int)
  | vF64 (i : Int)
  | vBool (b : Bool)
deriving DecidableEq, Repr

/-- Dynamic type of a Go value, as `reflect.TypeOf` reports it. -/
def GoVal.typeOf : GoVal → GoDynTy
  | .vStr _ => .tString
  | .vInt _ => .tInt
  | .vF64 _ => .tFloat64
  | .vBool _ => .tBool

/-- Scalar JSON/YAML documents in the fragment: strings, integer-literal
numbers, booleans. -/
inductive ScalarText
  | jstr (s : String)
  | jnum (i : Int)
  | jbool (b : Bool)
deriving DecidableEq, Repr

/-- Actable.MarshalJSON (actable implementation document lines 109-111):
`json.Marshal(&a.Value)`, the standard encoding of the held value. -/
def MarshalJSON : GoVal → ScalarText
  | .vStr s => .jstr s
  | .vInt i => .jnum i
  | .vF64 i => .jnum i
  | .vBool b => .jbool b

/-- The `json.Unmarshal(b, &obj)` step with `obj` declared `any`
(encoding/json semantics): strings decode as `string`, booleans as `bool`, and
every JSON number decodes as `float64` — never as `int`. -/
def decodeJSONAny : ScalarText → GoVal
  | .jstr s => .vStr s
  | .jnum i => .vF64 i
  | .jbool b => .vBool b

/-- Actable.UnmarshalJSON (lines 95-107): decode into an `any`, compare
`reflect.TypeOf(a.Value)` with `reflect.TypeOf(obj)`, and either assign
`a.Value = obj.(T)` or fail with the "trying to unmarshal type %T to type %T"
error, modelled as the pair (declared type, decoded dynamic type). -/
def UnmarshalJSON (declared : GoDynTy) (b : ScalarText) :
    Except (GoDynTy × GoDynTy) GoVal :=
  let obj := decodeJSONAny b
  if obj.typeOf = declared then .ok obj
  else .error (declared, obj.typeOf)

/-- The `n.Decode(&obj)` step with `obj` declared `any` (yaml.v3 semantics):
integer scalars decode as `int`, strings as `string`, booleans as `bool`. -/
def decodeYAMLAny : ScalarText → GoVal
  | .jstr s => .vStr s
  | .jnum i => .vInt i
  | .jbool b => .vBool b

/-- Actable.UnmarshalYAML (lines 117-127): same declared-versus-dynamic
type check as UnmarshalJSON, over the yaml.v3 decoding of the node. -/
def UnmarshalYAML (declared : GoDynTy) (b : ScalarText) :
    Except (GoDynTy × GoDynTy) GoVal :=
  let obj := decodeYAMLAny b
  if obj.typeOf = declared then .ok obj
  else .error (declared, obj.typeOf)

/-- C7 counterexample: the claim promises that marshalling then unmarshalling
yields an equal value for every concrete held type, but for a holder declared
over Go `int` the JSON round trip of the value 5 fails: `json.Marshal` writes
the number 5, decoding into `any` yields a `float64`, and the declared-type
check reports the type mismatch instead of the value. -/
theorem C7_counterexample_int_json_roundtrip :
    UnmarshalJSON .tInt (MarshalJSON (.vInt 5))
      = .error (.tInt, .tFloat64)
    ∧ UnmarshalJSON .tInt (MarshalJSON (.vInt 5)) ≠ .ok (.vInt 5) :=
  ⟨rfl, fun h => nomatch h⟩

/-- C7 amended: the JSON round trip yields an equal value exactly when the
declared type is one that decoding into `any` preserves — string, bool and
float64; for a declared Go `int` even the holder's own JSON output is rejected
with the type-mismatch error, because JSON numbers decode as float64.  In all
cases, JSON or YAML input whose decoded dynamic type differs from the holder's
declared type yields the type-mismatch error rather than a coerced value. -/
theorem C7_roundtrip_and_mismatch :
    (∀ s, UnmarshalJSON .tString (MarshalJSON (.vStr s)) = .ok (.vStr s))
    ∧ (∀ b, UnmarshalJSON .tBool (MarshalJSON (.vBool b)) = .ok (.vBool b))
    ∧ (∀ i, UnmarshalJSON .tFloat64 (MarshalJSON (.vF64 i)) = .ok (.vF64 i))
    ∧ (∀ i, UnmarshalJSON .tInt (MarshalJSON (.vInt i))
        = .error (.tInt, .tFloat64))
    ∧ (∀ d t, (decodeJSONAny t).typeOf ≠ d →
        UnmarshalJSON d t = .error (d, (decodeJSONAny t).typeOf))
    ∧ (∀ d t, (decodeYAMLAny t).typeOf ≠ d →
        UnmarshalYAML d t = .error (d, (decodeYAMLAny t).typeOf)) := by
  refine ⟨fun s => rfl, fun b => rfl, fun i => rfl, fun i => rfl, ?_, ?_⟩
  · intro d t h
    simp only [UnmarshalJSON]
    rw [if_neg h]
  · intro d t h
    simp only [UnmarshalYAML]
    rw [if_neg h]

/-- Witness for C7's amended statement: decoding the JSON number 3 into a
holder declared over string reports the mismatch (string expected, float64
decoded) rather than coercing. -/
theorem C7_witness :
    UnmarshalJSON .tString (.jnum 3) = .error (.tString, .tFloat64) :=
  C7_roundtrip_and_mismatch.2.2.2.2.1 .tString (.jnum 3) (by decide)

/-- Accesses to the wrapped `Value` field performed by one `Actable` operation,
in source order.  The flag records whether the access happens inside a closure
handed to the associated runner (`true`) or directly on the caller's own
thread (`false`). -/
inductive ValueAccess
  | read (viaRunner : Bool)
  | write (viaRunner : Bool)
deriving DecidableEq, Repr

/-- Whether every access of an operation goes through the runner. -/
def serializedOnly (l : List ValueAccess) : Bool :=
  l.all fun a =>
    match a with
    | .read v => v
    | .write v => v

/-- Actable.Set (implementation document lines 83-88): the single write
`a.Value = value` sits inside the closure passed to `Act`, executed by the
runner. -/
def SetAccesses : List ValueAccess := [.write true]

/-- Actable.Get (lines 90-93): the single read sits inside the closure passed
to `ActGet`, executed by the runner. -/
def GetAccesses : List ValueAccess := [.read true]

/-- Actable.UnmarshalJSON (lines 95-107): `reflect.TypeOf(a.Value)` reads the
field and `a.Value = obj.(T)` writes it, both directly on the caller's thread —
no runner closure is involved (accesses of the matching-type path). -/
def UnmarshalJSONAccesses : List ValueAccess := [.read false, .write false]

/-- Actable.MarshalJSON (lines 109-111): `json.Marshal(&a.Value)` reads the
field directly on the caller's thread. -/
def MarshalJSONAccesses : List ValueAccess := [.read false]

/-- Actable.UnmarshalYAML (lines 113-127): same direct read and write as the
JSON variant. -/
def UnmarshalYAMLAccesses : List ValueAccess := [.read false, .write false]

/-- Actable.MarshalYAML (lines 129-131): `yaml.Marshal(&a.Value)` reads the
field directly on the caller's thread. -/
def MarshalYAMLAccesses : List ValueAccess := [.read false]

/-- C8 counterexample: the claim says every operation of the holder touches the
wrapped value only inside a runner-executed closure, but MarshalJSON reads the
field directly on the caller's thread (as do both unmarshalling operations and
MarshalYAML). -/
theorem C8_counterexample_direct_access :
    serializedOnly MarshalJSONAccesses = false
    ∧ ValueAccess.write false ∈ UnmarshalJSONAccesses := by
  decide

/-- C8 amended: only Get and Set route their accesses to the wrapped value
through closures executed by the associated runner; the four (de)serialization
operations read and write the value directly on the caller's thread, outside
the serialized path (and the field itself is exported, so direct access is not
structurally prevented). -/
theorem C8_only_get_set_serialized :
    serializedOnly SetAccesses = true
    ∧ serializedOnly GetAccesses = true
    ∧ serializedOnly UnmarshalJSONAccesses = false
    ∧ serializedOnly MarshalJSONAccesses = false
    ∧ serializedOnly UnmarshalYAMLAccesses = false
    ∧ serializedOnly MarshalYAMLAccesses = false := by
  decide

end ActionLib
